import Mathlib

/-!
Verification of the event-driven generation of the htb-tui terminal client
(src/app.rs, src/handler.rs) and its fetch pipeline, embedded shallowly:
machine integers become Nat, fallible operations return Except, network
endpoints become explicit oracles, and the emitted channel events become an
explicit output list.
-/

namespace HtbTui

/-- Byte-order comparison of two character lists, `true` when the first is
lexicographically less-or-equal.  This is the order `Ord for String` uses in
Rust (UTF-8 byte order coincides with code-point order). -/
def charListLe : List Char → List Char → Bool
  | [], _ => true
  | _ :: _, [] => false
  | a :: as, b :: bs =>
    if a.toNat < b.toNat then true
    else if b.toNat < a.toNat then false
    else charListLe as bs

/-- Insert `x` after every already-placed element `y` with `le y x`;
auxiliary step of the stable sort. -/
def insertStable {α : Type} (le : α → α → Bool) (x : α) : List α → List α
  | [] => [x]
  | y :: ys => if le y x then y :: insertStable le x ys else x :: y :: ys

/-- Stable sort by the boolean relation `le`, modelling `Vec::sort_by`
(a stable sort; the output of a stable sort is uniquely determined by the
comparator and the input order, so any stable algorithm embeds it). -/
def sortStable {α : Type} (le : α → α → Bool) (l : List α) : List α :=
  l.foldl (fun s x => insertStable le x s) []

/-- The polymorphic wire value of the `active` field (`serde_json::Value`),
observed through the patterns `Machine::is_active` matches on: a JSON bool,
a JSON number seen through `as_i64()`, or anything else. -/
inductive JsonValue where
  | bool (b : Bool)
  | num (asI64 : Option Int)
  | other
deriving DecidableEq

/-- One catalog record (`Machine` in src/app.rs). -/
structure Machine where
  id : Nat
  name : String
  os : String
  points : Nat
  star : Float
  release : String
  difficulty : Nat
  userOwnsCount : Nat
  authUserInUserOwns : Bool
  rootOwnsCount : Nat
  authUserInRootOwns : Bool
  active : JsonValue
  ip : Option String

/-- `Machine::is_active`: normalize the polymorphic `active` value. -/
def Machine.isActive (m : Machine) : Bool :=
  match m.active with
  | JsonValue.bool b => b
  | JsonValue.num n => n == Option.some 1
  | JsonValue.other => false

/-- Pagination links envelope (`Link` in src/app.rs). -/
structure Link where
  first : String
  last : String
  prev : Option String
  next : Option String

/-- One page of the list endpoint (`Root` in src/app.rs). -/
structure Root where
  data : List Machine
  links : Link

/-- `FilterCriteria` in src/app.rs. -/
inductive FilterCriteria where
  | none
  | userNotOwns
  | rootNotOwns
  | userAndRootNotOwns
deriving DecidableEq

/-- `SortCriteria` in src/app.rs. -/
inductive SortCriteria where
  | difficulty
  | userOwns
  | rootOwns
  | name
deriving DecidableEq

/-- `InputMode` in src/app.rs. -/
inductive InputMode where
  | normal
  | flag
deriving DecidableEq

/-- The bus events the application emits (`Event` variants used by
src/app.rs: `FetchMachines`, `SpawnMachine(id)`, `SubmitFlag(id, flag)`). -/
inductive Event where
  | fetchMachines
  | spawnMachine (id : Nat)
  | submitFlag (id : Nat) (flag : String)
deriving DecidableEq

/-- The mutable application state (`App` in src/app.rs).  The reqwest
client carries no observable state and the event sender is modelled by
returning emitted events, so neither is a field here. -/
structure App where
  running : Bool
  htbApiKey : String
  machines : List Machine
  selected : Option Nat
  infoMessage : String
  filterCriteria : FilterCriteria
  sortCriteria : SortCriteria
  inputMode : InputMode
  flagInput : String
  showInputField : Bool
  selectedMachineIp : Option String
  selectedMachineId : Option Nat

/-- `App::new`. -/
def App.new (htbApiKey : String) : App :=
  { running := true
    htbApiKey := htbApiKey
    machines := []
    selected := Option.none
    infoMessage := ""
    filterCriteria := FilterCriteria.none
    sortCriteria := SortCriteria.difficulty
    inputMode := InputMode.normal
    flagInput := ""
    showInputField := false
    selectedMachineIp := Option.none
    selectedMachineId := Option.none }

/-- `App::quit`. -/
def App.quit (a : App) : App :=
  { a with running := false }

/-- `App::filtered_machines`: retain the records meeting the current
filter criterion. -/
def App.filteredMachines (a : App) : List Machine :=
  a.machines.filter (fun machine =>
    match a.filterCriteria with
    | FilterCriteria.none => true
    | FilterCriteria.userNotOwns => !machine.authUserInUserOwns
    | FilterCriteria.rootNotOwns => !machine.authUserInRootOwns
    | FilterCriteria.userAndRootNotOwns =>
        !machine.authUserInUserOwns && !machine.authUserInRootOwns)

/-- `App::sorted_machines`: stable sort by the current criterion.  The
boolean relation is `comparator(x, y) ≠ Greater` for the `Ordering`
comparator passed to `sort_by`. -/
def App.sortedMachines (a : App) (machines : List Machine) : List Machine :=
  sortStable (fun x y =>
    match a.sortCriteria with
    | SortCriteria.difficulty => decide (x.difficulty ≤ y.difficulty)
    | SortCriteria.userOwns => decide (y.userOwnsCount ≤ x.userOwnsCount)
    | SortCriteria.rootOwns => decide (y.rootOwnsCount ≤ x.rootOwnsCount)
    | SortCriteria.name => charListLe x.name.data y.name.data) machines

/-- The projection the code recomputes at each use:
`sorted_machines(filtered_machines())`. -/
def App.projection (a : App) : List Machine :=
  a.sortedMachines a.filteredMachines

/-- `App::update_input_fields`. -/
def App.updateInputFields (a : App) : App :=
  match a.selected with
  | Option.some selected =>
    match a.projection[selected]? with
    | Option.some machine =>
      { a with
        showInputField := machine.isActive
          && (!machine.authUserInUserOwns || !machine.authUserInRootOwns)
        selectedMachineIp := machine.ip }
    | Option.none =>
      { a with showInputField := false, selectedMachineIp := Option.none }
  | Option.none =>
    { a with showInputField := false, selectedMachineIp := Option.none }

/-- `App::next` (`Nat` subtraction is saturating, like `saturating_sub`). -/
def App.next (a : App) : App :=
  let sorted := a.projection
  let i :=
    match a.selected with
    | Option.some i => if i ≥ sorted.length - 1 then 0 else i + 1
    | Option.none => 0
  App.updateInputFields { a with selected := Option.some i }

/-- `App::previous`. -/
def App.previous (a : App) : App :=
  let sorted := a.projection
  let i :=
    match a.selected with
    | Option.some i => if i = 0 then sorted.length - 1 else i - 1
    | Option.none => 0
  App.updateInputFields { a with selected := Option.some i }

/-- `App::request_fetch_machines`: emits the refresh request event. -/
def App.requestFetchMachines (_ : App) : List Event :=
  [Event.fetchMachines]

/-- `App::handle_fetch_machines_result`. -/
def App.handleFetchMachinesResult (a : App)
    (result : Except String (List Machine)) : App :=
  match result with
  | Except.ok machines => App.updateInputFields { a with machines := machines }
  | Except.error e => { a with infoMessage := "Error fetching machines: " ++ e }

/-- `App::request_spawn_machine`: resolve the id from the current
projection and emit the spawn event. -/
def App.requestSpawnMachine (a : App) : List Event :=
  match a.selected with
  | Option.some selected =>
    match a.projection[selected]? with
    | Option.some machine => [Event.spawnMachine machine.id]
    | Option.none => []
  | Option.none => []

/-- `App::handle_spawn_machine_result`. -/
def App.handleSpawnMachineResult (a : App)
    (result : Except String String) : App :=
  match result with
  | Except.ok message => { a with infoMessage := message }
  | Except.error e => { a with infoMessage := "Error spawning machine: " ++ e }

/-- `App::request_submit_flag`. -/
def App.requestSubmitFlag (a : App) : List Event :=
  match a.selectedMachineId with
  | Option.some machineId => [Event.submitFlag machineId a.flagInput]
  | Option.none => []

/-- `App::handle_submit_flag_result`. -/
def App.handleSubmitFlagResult (a : App)
    (result : Except String String) : App :=
  match result with
  | Except.ok message => { a with infoMessage := message }
  | Except.error e => { a with infoMessage := "Error sending flag: " ++ e }

/-- `App::cycle_filter`. -/
def App.cycleFilter (a : App) : App :=
  let fc :=
    match a.filterCriteria with
    | FilterCriteria.none => FilterCriteria.userNotOwns
    | FilterCriteria.userNotOwns => FilterCriteria.rootNotOwns
    | FilterCriteria.rootNotOwns => FilterCriteria.userAndRootNotOwns
    | FilterCriteria.userAndRootNotOwns => FilterCriteria.none
  App.updateInputFields { a with filterCriteria := fc, selected := Option.none }

/-- `App::cycle_sort`. -/
def App.cycleSort (a : App) : App :=
  let sc :=
    match a.sortCriteria with
    | SortCriteria.difficulty => SortCriteria.userOwns
    | SortCriteria.userOwns => SortCriteria.rootOwns
    | SortCriteria.rootOwns => SortCriteria.name
    | SortCriteria.name => SortCriteria.difficulty
  App.updateInputFields { a with sortCriteria := sc, selected := Option.none }

/-- `App::enter_flag_input_mode`. -/
def App.enterFlagInputMode (a : App) : App :=
  if a.showInputField then { a with inputMode := InputMode.flag } else a

/-- `App::set_info_message`. -/
def App.setInfoMessage (a : App) (message : String) : App :=
  { a with infoMessage := message }

/-- The key codes src/handler.rs distinguishes. -/
inductive KeyCode where
  | char (c : Char)
  | down
  | up
  | enter
  | esc
  | backspace
  | other
deriving DecidableEq

/-- `handle_key_events` in src/handler.rs, returning the new state and the
events emitted on the bus while handling the key. -/
def handleKeyEvents (keyCode : KeyCode) (app : App) : App × List Event :=
  match app.inputMode with
  | InputMode.normal =>
    match keyCode with
    | KeyCode.char c =>
      if c = 'q' then (app.quit, [])
      else if c = 'f' then (app.cycleFilter, [])
      else if c = 's' then (app.cycleSort, [])
      else if c = 'a' then (app.enterFlagInputMode, [])
      else (app, [])
    | KeyCode.down => (app.next, [])
    | KeyCode.up => (app.previous, [])
    | KeyCode.enter => (app, app.requestSpawnMachine)
    | KeyCode.esc => (app, [])
    | KeyCode.backspace => (app, [])
    | KeyCode.other => (app, [])
  | InputMode.flag =>
    match keyCode with
    | KeyCode.esc => ({ app with inputMode := InputMode.normal }, [])
    | KeyCode.enter => (app, app.requestSubmitFlag)
    | KeyCode.char c => ({ app with flagInput := app.flagInput.push c }, [])
    | KeyCode.backspace =>
        ({ app with flagInput := app.flagInput.dropRight 1 }, [])
    | KeyCode.down => (app, [])
    | KeyCode.up => (app, [])
    | KeyCode.other => (app, [])

/-- One state transition of the single-owner event loop: a key event or
one of the background result / status events consumed by the state owner. -/
inductive Step : App → App → Prop where
  | key (k : KeyCode) (a : App) : Step a (handleKeyEvents k a).1
  | fetchResult (r : Except String (List Machine)) (a : App) :
      Step a (a.handleFetchMachinesResult r)
  | spawnResult (r : Except String String) (a : App) :
      Step a (a.handleSpawnMachineResult r)
  | submitResult (r : Except String String) (a : App) :
      Step a (a.handleSubmitFlagResult r)
  | info (msg : String) (a : App) : Step a (a.setInfoMessage msg)

/-- A state is reachable when some event sequence produces it from
`App::new` (for some credential string). -/
def Reachable (a : App) : Prop :=
  ∃ key, Relation.ReflTransGen Step (App.new key) a

/-- The guard `update_input_fields` computes for the currently selected
record of the projection: active and missing at least one completion
flag. -/
def App.selGuard (a : App) : Bool :=
  match a.selected with
  | Option.some i =>
    match a.projection[i]? with
    | Option.some m =>
        m.isActive && (!m.authUserInUserOwns || !m.authUserInRootOwns)
    | Option.none => false
  | Option.none => false

/-- The derived address of the currently selected record of the
projection, as `update_input_fields` recomputes it. -/
def App.selIp (a : App) : Option String :=
  match a.selected with
  | Option.some i =>
    match a.projection[i]? with
    | Option.some m => m.ip
    | Option.none => Option.none
  | Option.none => Option.none

/-- Base URL constant `HTB_API_URL`. -/
def htbApiUrl : String := "https://labs.hackthebox.com/api/v4"

/-- URL of the active-catalog page request in `fetch_all_machines`. -/
def activeMachinesUrl : String := htbApiUrl ++ "/machine/paginated?per_page=100"

/-- URL of the first retired-catalog page request in `fetch_all_machines`. -/
def retiredMachinesUrl : String :=
  htbApiUrl ++ "/machine/list/retired/paginated?per_page=100"

/-- Outcome of one HTTP send: a response with a status (success class or
not, plus its display text), or a transport error. -/
inductive HttpSendResult where
  | response (isSuccess : Bool) (status : String)
  | transportError (e : String)

/-- `spawn_machine` in src/app.rs: POST the spawn endpoint for the id and
classify the outcome by status class only.  The network is the `send`
oracle, keyed by the machine id in the query string. -/
def spawnMachine (send : Nat → HttpSendResult) (machineId : Nat) :
    Except String String :=
  match send machineId with
  | HttpSendResult.response true _ =>
      Except.ok ("Machine " ++ toString machineId ++ " spawned successfully")
  | HttpSendResult.response false status =>
      Except.error ("Failed to spawn with status: " ++ status)
  | HttpSendResult.transportError e =>
      Except.error ("Network request failed: " ++ e)

/-- The per-record enrichment step inside `fetch_machines`: for an active
record, ask the detail endpoint (the `profile` oracle, keyed by record id)
for its address.  `Except.error` is a transport error (logged only, record
kept unchanged); `Except.ok Option.none` is a response without a usable
`info.ip` (record kept unchanged). -/
def enrichMachine (profile : Nat → Except String (Option String))
    (m : Machine) : Machine :=
  if m.isActive then
    match profile m.id with
    | Except.ok (Option.some ip) => { m with ip := Option.some ip }
    | Except.ok Option.none => m
    | Except.error _ => m
  else m

/-- `fetch_machines` in src/app.rs: fetch one page (the `page` oracle,
keyed by URL; `Except.error` covers both the transport error and the JSON
decode error the source propagates with `?`), then enrich every active
record in it. -/
def fetchMachines (page : String → Except String Root)
    (profile : Nat → Except String (Option String)) (url : String) :
    Except String Root :=
  match page url with
  | Except.error e => Except.error e
  | Except.ok res =>
      Except.ok { res with data := res.data.map (enrichMachine profile) }

/-- The `while let Some(next_url)` loop of `fetch_all_machines`, with fuel
standing in for the unbounded iteration: `Option.none` means the loop has
not finished within `fuel` further page fetches. -/
def fetchRetiredLoop (page : String → Except String Root)
    (profile : Nat → Except String (Option String)) :
    Nat → Root → List Machine → Option (Except String (List Machine))
  | fuel, res, allMachines =>
    match res.links.next with
    | Option.none => Option.some (Except.ok allMachines)
    | Option.some nextUrl =>
      match fuel with
      | 0 => Option.none
      | fuel + 1 =>
        match fetchMachines page profile nextUrl with
        | Except.error e => Option.some (Except.error e)
        | Except.ok res2 =>
            fetchRetiredLoop page profile fuel res2 (allMachines ++ res2.data)

/-- `fetch_all_machines` in src/app.rs: one active-catalog page, then the
retired-catalog series followed through its next links. -/
def fetchAllMachines (page : String → Except String Root)
    (profile : Nat → Except String (Option String)) (fuel : Nat) :
    Option (Except String (List Machine)) :=
  match fetchMachines page profile activeMachinesUrl with
  | Except.error e => Option.some (Except.error e)
  | Except.ok res1 =>
    match fetchMachines page profile retiredMachinesUrl with
    | Except.error e => Option.some (Except.error e)
    | Except.ok res2 =>
        fetchRetiredLoop page profile fuel res2 (res1.data ++ res2.data)

/-- A finite retired series: starting from page `r`, each page's next link
resolves (through `fetch`) to the following page, and the last page has no
next link. -/
inductive RetiredChain (fetch : String → Except String Root) :
    Root → List Root → Prop where
  | nil (r : Root) (h : r.links.next = Option.none) : RetiredChain fetch r []
  | cons (r r2 : Root) (rest : List Root) (url : String)
      (hnext : r.links.next = Option.some url)
      (hfetch : fetch url = Except.ok r2)
      (hrest : RetiredChain fetch r2 rest) : RetiredChain fetch r (r2 :: rest)

/-- A record that is active and fully owned by the current user. -/
def mActive : Machine :=
  { id := 7, name := "alpha", os := "Linux", points := 20, star := 4.5,
    release := "2020-01-01", difficulty := 10, userOwnsCount := 100,
    authUserInUserOwns := true, rootOwnsCount := 90,
    authUserInRootOwns := true, active := JsonValue.bool true,
    ip := Option.none }

/-- An inactive, unowned record. -/
def mIdle1 : Machine :=
  { id := 8, name := "beta", os := "Linux", points := 30, star := 3.5,
    release := "2021-01-01", difficulty := 20, userOwnsCount := 50,
    authUserInUserOwns := false, rootOwnsCount := 40,
    authUserInRootOwns := false, active := JsonValue.bool false,
    ip := Option.none }

/-- Another inactive, unowned record. -/
def mIdle2 : Machine :=
  { id := 9, name := "gamma", os := "Windows", points := 40, star := 2.5,
    release := "2022-01-01", difficulty := 30, userOwnsCount := 20,
    authUserInUserOwns := false, rootOwnsCount := 10,
    authUserInRootOwns := false, active := JsonValue.bool false,
    ip := Option.none }

/-- A third inactive record, page fixture for the pagination scenario. -/
def mIdle3 : Machine :=
  { id := 10, name := "delta", os := "Linux", points := 25, star := 4.0,
    release := "2023-01-01", difficulty := 40, userOwnsCount := 5,
    authUserInUserOwns := false, rootOwnsCount := 3,
    authUserInRootOwns := false, active := JsonValue.bool false,
    ip := Option.none }

/-- A fourth inactive record, page fixture for the pagination scenario. -/
def mIdle4 : Machine :=
  { id := 11, name := "epsilon", os := "FreeBSD", points := 35, star := 3.0,
    release := "2024-01-01", difficulty := 50, userOwnsCount := 2,
    authUserInUserOwns := false, rootOwnsCount := 1,
    authUserInRootOwns := false, active := JsonValue.bool false,
    ip := Option.none }

/-- An active record with neither completion flag, used for the
enrichment-failure scenario. -/
def mEnrich : Machine :=
  { id := 5, name := "zeta", os := "Linux", points := 20, star := 4.5,
    release := "2020-06-01", difficulty := 20, userOwnsCount := 10,
    authUserInUserOwns := false, rootOwnsCount := 8,
    authUserInRootOwns := false, active := JsonValue.bool true,
    ip := Option.none }

/-- The state after a refresh delivered one record to a fresh app. -/
def fetchedOne : App :=
  (App.new "k").handleFetchMachinesResult (Except.ok [mIdle1])

/-- `fetchedOne` after one move-next key: index 0 is selected. -/
def selectedOne : App :=
  (handleKeyEvents KeyCode.down fetchedOne).1

/-- `selectedOne` after a refresh delivered an empty collection: the
selection index is left untouched while the projection became empty. -/
def refreshedEmpty : App :=
  selectedOne.handleFetchMachinesResult (Except.ok [])

/-- The state after a refresh delivered three records to a fresh app. -/
def fetchedThree : App :=
  (App.new "k").handleFetchMachinesResult
    (Except.ok [mActive, mIdle1, mIdle2])

/-- `fetchedThree` after one move-next key: the active record `mActive`
(lowest difficulty under the default sort) is selected. -/
def selectedActive : App :=
  (handleKeyEvents KeyCode.down fetchedThree).1

/-- A state sitting in text-entry mode with a partially typed buffer. -/
def flagModeState : App :=
  { App.new "k" with inputMode := InputMode.flag, flagInput := "ab" }

/-- A links envelope with the given next cursor. -/
def linkTo (nxt : Option String) : Link :=
  { first := "f", last := "l", prev := Option.none, next := nxt }

/-- Active-catalog page fixture. -/
def rootA : Root := { data := [mIdle1], links := linkTo Option.none }

/-- First retired-catalog page fixture, linking to `page2`. -/
def rootR0 : Root := { data := [mIdle2], links := linkTo (Option.some "page2") }

/-- Second retired-catalog page fixture, linking to `page3`. -/
def rootR1 : Root := { data := [mIdle3], links := linkTo (Option.some "page3") }

/-- Last retired-catalog page fixture, with no next link. -/
def rootR2 : Root := { data := [mIdle4], links := linkTo Option.none }

/-- Page oracle serving the three-page retired series scenario. -/
def pageW : String → Except String Root := fun url =>
  if url = activeMachinesUrl then Except.ok rootA
  else if url = retiredMachinesUrl then Except.ok rootR0
  else if url = "page2" then Except.ok rootR1
  else if url = "page3" then Except.ok rootR2
  else Except.error "not found"

/-- Detail oracle returning a response without a usable address. -/
def profileW : Nat → Except String (Option String) := fun _ =>
  Except.ok Option.none

/-- Enrichment-scenario page fixture holding one active record. -/
def rootE : Root := { data := [mEnrich], links := linkTo Option.none }

/-- Page oracle for the enrichment-failure scenario. -/
def pageE : String → Except String Root := fun _ => Except.ok rootE

/-- Detail oracle failing with a simulated transport error. -/
def profileE : Nat → Except String (Option String) := fun _ =>
  Except.error "connection reset"

/-- `update_input_fields` exactly recomputes the two derived fields and
touches nothing else. -/
theorem updateInputFields_eq (a : App) :
    a.updateInputFields =
      { a with showInputField := a.selGuard, selectedMachineIp := a.selIp } := by
  rcases hsel : a.selected with _ | i
  · simp only [App.updateInputFields, App.selGuard, App.selIp, hsel]
  · rcases hproj : a.projection[i]? with _ | m <;>
      simp only [App.updateInputFields, App.selGuard, App.selIp, hsel, hproj]

/-- The derived guard reads only the collection, the criteria and the
selection, so recomputing the derived fields leaves it unchanged. -/
theorem updateInputFields_inv (a : App) :
    (App.updateInputFields a).showInputField =
      (App.updateInputFields a).selGuard := by
  rw [updateInputFields_eq]
  rfl

theorem updateInputFields_selected (a : App) :
    (App.updateInputFields a).selected = a.selected := by
  rw [updateInputFields_eq]

theorem updateInputFields_selectedMachineId (a : App) :
    (App.updateInputFields a).selectedMachineId = a.selectedMachineId := by
  rw [updateInputFields_eq]

theorem updateInputFields_machines (a : App) :
    (App.updateInputFields a).machines = a.machines := by
  rw [updateInputFields_eq]

theorem updateInputFields_infoMessage (a : App) :
    (App.updateInputFields a).infoMessage = a.infoMessage := by
  rw [updateInputFields_eq]

theorem updateInputFields_filterCriteria (a : App) :
    (App.updateInputFields a).filterCriteria = a.filterCriteria := by
  rw [updateInputFields_eq]

theorem updateInputFields_sortCriteria (a : App) :
    (App.updateInputFields a).sortCriteria = a.sortCriteria := by
  rw [updateInputFields_eq]

/-- Every event-loop transition keeps `selected_machine_id` unchanged and
preserves the consistency of `show_input_field` with the derived guard. -/
theorem step_preserves {a b : App} (h : Step a b) :
    b.selectedMachineId = a.selectedMachineId ∧
      (a.showInputField = a.selGuard → b.showInputField = b.selGuard) := by
  cases h with
  | key k a =>
    cases hm : a.inputMode with
    | normal =>
      cases k with
      | char c =>
        simp only [handleKeyEvents, hm]
        split
        · exact ⟨rfl, fun hi => hi⟩
        · split
          · refine ⟨?_, fun _ => ?_⟩ <;>
              simp [App.cycleFilter,
                updateInputFields_selectedMachineId, updateInputFields_inv]
          · split
            · refine ⟨?_, fun _ => ?_⟩ <;>
                simp [App.cycleSort,
                  updateInputFields_selectedMachineId, updateInputFields_inv]
            · split
              · constructor
                · simp only [App.enterFlagInputMode]
                  split <;> rfl
                · intro hi
                  simp only [App.enterFlagInputMode]
                  split <;> exact hi
              · exact ⟨rfl, fun hi => hi⟩
      | down =>
        refine ⟨?_, fun _ => ?_⟩ <;>
          simp [handleKeyEvents, hm, App.next,
            updateInputFields_selectedMachineId, updateInputFields_inv]
      | up =>
        refine ⟨?_, fun _ => ?_⟩ <;>
          simp [handleKeyEvents, hm, App.previous,
            updateInputFields_selectedMachineId, updateInputFields_inv]
      | enter => simp [handleKeyEvents, hm] <;> exact fun hi => hi
      | esc => simp [handleKeyEvents, hm] <;> exact fun hi => hi
      | backspace => simp [handleKeyEvents, hm] <;> exact fun hi => hi
      | other => simp [handleKeyEvents, hm] <;> exact fun hi => hi
    | flag =>
      cases k with
      | char c => simp [handleKeyEvents, hm] <;> exact fun hi => hi
      | down => simp [handleKeyEvents, hm] <;> exact fun hi => hi
      | up => simp [handleKeyEvents, hm] <;> exact fun hi => hi
      | enter => simp [handleKeyEvents, hm] <;> exact fun hi => hi
      | esc => simp [handleKeyEvents, hm] <;> exact fun hi => hi
      | backspace => simp [handleKeyEvents, hm] <;> exact fun hi => hi
      | other => simp [handleKeyEvents, hm] <;> exact fun hi => hi
  | fetchResult r a =>
    cases r with
    | ok ms =>
      refine ⟨?_, fun _ => ?_⟩ <;>
        simp [App.handleFetchMachinesResult,
          updateInputFields_selectedMachineId, updateInputFields_inv]
    | error e => exact ⟨rfl, fun hi => hi⟩
  | spawnResult r a =>
    cases r with
    | ok m => exact ⟨rfl, fun hi => hi⟩
    | error e => exact ⟨rfl, fun hi => hi⟩
  | submitResult r a =>
    cases r with
    | ok m => exact ⟨rfl, fun hi => hi⟩
    | error e => exact ⟨rfl, fun hi => hi⟩
  | info msg a => exact ⟨rfl, fun hi => hi⟩

/-- In every reachable state `show_input_field` equals the derived guard
and `selected_machine_id` is still the initial `Option.none`. -/
theorem reachable_invariants (a : App) (h : Reachable a) :
    a.selectedMachineId = Option.none ∧ a.showInputField = a.selGuard := by
  obtain ⟨key, hsteps⟩ := h
  induction hsteps with
  | refl => exact ⟨rfl, rfl⟩
  | tail hs hstep ih =>
    exact ⟨(step_preserves hstep).1.trans ih.1, (step_preserves hstep).2 ih.2⟩

theorem updateInputFields_ip (a : App) :
    (App.updateInputFields a).selectedMachineIp =
      (App.updateInputFields a).selIp := by
  rw [updateInputFields_eq]
  rfl

/-- C8: Cycle closure: for every application state, applying the
cycle-filter operation four times returns the filter criterion to its
original value, and applying the cycle-sort operation four times returns
the sort criterion to its original value. -/
theorem cycle_closure (a : App) :
    (a.cycleFilter.cycleFilter.cycleFilter.cycleFilter).filterCriteria
        = a.filterCriteria
    ∧ (a.cycleSort.cycleSort.cycleSort.cycleSort).sortCriteria
        = a.sortCriteria := by
  constructor
  · have hstep : ∀ b : App, (App.cycleFilter b).filterCriteria =
        match b.filterCriteria with
        | FilterCriteria.none => FilterCriteria.userNotOwns
        | FilterCriteria.userNotOwns => FilterCriteria.rootNotOwns
        | FilterCriteria.rootNotOwns => FilterCriteria.userAndRootNotOwns
        | FilterCriteria.userAndRootNotOwns => FilterCriteria.none :=
      fun b => (updateInputFields_filterCriteria _).trans rfl
    rw [hstep, hstep, hstep, hstep]
    cases hfc : a.filterCriteria <;> rfl
  · have hstep : ∀ b : App, (App.cycleSort b).sortCriteria =
        match b.sortCriteria with
        | SortCriteria.difficulty => SortCriteria.userOwns
        | SortCriteria.userOwns => SortCriteria.rootOwns
        | SortCriteria.rootOwns => SortCriteria.name
        | SortCriteria.name => SortCriteria.difficulty :=
      fun b => (updateInputFields_sortCriteria _).trans rfl
    rw [hstep, hstep, hstep, hstep]
    cases hsc : a.sortCriteria <;> rfl

/-- C7: Cancel preserves the buffer: in text-entry mode the cancel key
returns the input mode to Normal, emits nothing, and leaves every other
field — in particular the free-text buffer — exactly unchanged. -/
theorem cancel_preserves_buffer (a : App)
    (hm : a.inputMode = InputMode.flag) :
    handleKeyEvents KeyCode.esc a =
      ({ a with inputMode := InputMode.normal }, []) := by
  simp [handleKeyEvents, hm]

theorem cancel_preserves_buffer_witness :
    handleKeyEvents KeyCode.esc flagModeState =
        ({ flagModeState with inputMode := InputMode.normal }, [])
      ∧ (handleKeyEvents KeyCode.esc flagModeState).1.flagInput = "ab" :=
  ⟨cancel_preserves_buffer flagModeState rfl, rfl⟩

/-- C4: Atomicity of refresh failure: handling an error refresh result
changes nothing but the status message, which records the error text;
handling a successful refresh result replaces the collection wholesale,
leaves the status message alone, and recomputes the derived guard and
address fields. -/
theorem refresh_result_spec (a : App) (ms : List Machine) (e : String) :
    a.handleFetchMachinesResult (Except.error e) =
        { a with infoMessage := "Error fetching machines: " ++ e }
    ∧ (a.handleFetchMachinesResult (Except.ok ms)).machines = ms
    ∧ (a.handleFetchMachinesResult (Except.ok ms)).infoMessage
        = a.infoMessage
    ∧ (a.handleFetchMachinesResult (Except.ok ms)).showInputField
        = (a.handleFetchMachinesResult (Except.ok ms)).selGuard
    ∧ (a.handleFetchMachinesResult (Except.ok ms)).selectedMachineIp
        = (a.handleFetchMachinesResult (Except.ok ms)).selIp :=
  ⟨rfl, (updateInputFields_machines _).trans rfl,
    (updateInputFields_infoMessage _).trans rfl,
    updateInputFields_inv _, updateInputFields_ip _⟩

/-- C10: the field `selected_machine_id` is `Option.none` in the initial
state and no operation assigns it, so in every reachable state
`request_submit_flag` emits no `SubmitFlag` event. -/
theorem submit_flag_never_emitted (a : App) (hr : Reachable a) :
    a.selectedMachineId = Option.none ∧ a.requestSubmitFlag = [] := by
  have h := (reachable_invariants a hr).1
  refine ⟨h, ?_⟩
  unfold App.requestSubmitFlag
  rw [h]

theorem submit_flag_never_emitted_witness :
    (App.new "k").selectedMachineId = Option.none
      ∧ (App.new "k").requestSubmitFlag = [] :=
  submit_flag_never_emitted (App.new "k") ⟨"k", Relation.ReflTransGen.refl⟩

/-- C6: Guarded entry into text mode: in every reachable state in Normal
mode, the enter-text command moves the input mode to text entry exactly
when the currently selected record of the projection is active and the
current user is missing at least one completion flag; otherwise it leaves
the state unchanged. -/
theorem enter_text_mode_guarded (a : App) (hr : Reachable a)
    (hm : a.inputMode = InputMode.normal) :
    ((a.enterFlagInputMode).inputMode = InputMode.flag ↔ a.selGuard = true)
    ∧ (a.selGuard = false → a.enterFlagInputMode = a)
    ∧ (a.selGuard = true →
        a.enterFlagInputMode = { a with inputMode := InputMode.flag }) := by
  have hinv := (reachable_invariants a hr).2
  cases hg : a.selGuard with
  | false =>
    have hsf : a.showInputField = false := hinv.trans hg
    refine ⟨?_, fun _ => ?_, fun hcontra => ?_⟩
    · simp [App.enterFlagInputMode, hsf, hm]
    · simp [App.enterFlagInputMode, hsf]
    · simp at hcontra
  | true =>
    have hsf : a.showInputField = true := hinv.trans hg
    refine ⟨?_, fun hcontra => ?_, fun _ => ?_⟩
    · simp [App.enterFlagInputMode, hsf]
    · simp at hcontra
    · simp [App.enterFlagInputMode, hsf]

theorem enter_text_mode_guarded_witness :
    (App.new "k").enterFlagInputMode = App.new "k" :=
  (enter_text_mode_guarded (App.new "k")
    ⟨"k", Relation.ReflTransGen.refl⟩ rfl).2.1 rfl

/-- C1, counterexample: a reachable state (fresh app, refresh with one
record, move-next, refresh with an empty collection) in which the
selection index is present and NOT below the projection length — the
refresh handler neither clamped nor cleared it. -/
theorem selection_invariant_cex :
    Reachable refreshedEmpty
    ∧ refreshedEmpty.selected = Option.some 0
    ∧ refreshedEmpty.projection.length = 0 := by
  refine ⟨⟨"k", ?_⟩, by decide, by decide⟩
  exact Relation.ReflTransGen.tail
    (Relation.ReflTransGen.tail
      (Relation.ReflTransGen.tail Relation.ReflTransGen.refl
        (Step.fetchResult (Except.ok [mIdle1]) (App.new "k")))
      (Step.key KeyCode.down fetchedOne))
    (Step.fetchResult (Except.ok []) selectedOne)

/-- C1, amended: cycle-filter and cycle-sort clear the selection index;
a refresh result (success or failure) leaves the selection index exactly
unchanged — it is neither clamped nor cleared — and move-next yields an
in-range index whenever the projection is nonempty. -/
theorem selection_index_behavior (a : App) (ms : List Machine)
    (e : String) :
    ((a.cycleFilter).selected = Option.none)
    ∧ ((a.cycleSort).selected = Option.none)
    ∧ ((a.handleFetchMachinesResult (Except.ok ms)).selected = a.selected)
    ∧ ((a.handleFetchMachinesResult (Except.error e)).selected = a.selected)
    ∧ (0 < a.projection.length →
        ∃ j, (a.next).selected = Option.some j
          ∧ j < a.projection.length) := by
  refine ⟨(updateInputFields_selected _).trans rfl,
    (updateInputFields_selected _).trans rfl,
    (updateInputFields_selected _).trans rfl, rfl, ?_⟩
  intro hL
  have hsel : (App.next a).selected =
      Option.some (match a.selected with
        | Option.some i =>
            if i ≥ a.projection.length - 1 then 0 else i + 1
        | Option.none => 0) := (updateInputFields_selected _).trans rfl
  rcases h : a.selected with _ | i
  · exact ⟨0, by rw [hsel, h], hL⟩
  · by_cases hge : i ≥ a.projection.length - 1
    · exact ⟨0, by rw [hsel, h]; simp [hge], hL⟩
    · refine ⟨i + 1, by rw [hsel, h]; simp [hge], ?_⟩
      omega

theorem selection_index_behavior_witness :
    ∃ j, (App.next fetchedOne).selected = Option.some j
      ∧ j < fetchedOne.projection.length :=
  (selection_index_behavior fetchedOne [] "").2.2.2.2 (by decide)

/-- C2, counterexample: on the empty projection of a fresh app the
selection is none, yet move-next selects index 0 instead of leaving the
selection none. -/
theorem wraparound_empty_cex :
    (App.new "k").projection.length = 0
    ∧ ((App.new "k").next).selected = Option.some 0
    ∧ ¬ ((App.new "k").next).selected = Option.none := by
  refine ⟨by decide, by decide, by decide⟩

/-- C2, amended: with a projection of length L, move-next from index L−1
yields index 0 and move-previous from index 0 yields index L−1; but with
L = 0 and no selection, either operation selects index 0 rather than
leaving the selection none. -/
theorem selection_wraparound (a : App) :
    (0 < a.projection.length →
      a.selected = Option.some (a.projection.length - 1) →
      (a.next).selected = Option.some 0)
    ∧ (a.selected = Option.some 0 →
      (a.previous).selected = Option.some (a.projection.length - 1))
    ∧ (a.projection.length = 0 → a.selected = Option.none →
      (a.next).selected = Option.some 0
        ∧ (a.previous).selected = Option.some 0) := by
  have hnext : (App.next a).selected =
      Option.some (match a.selected with
        | Option.some i =>
            if i ≥ a.projection.length - 1 then 0 else i + 1
        | Option.none => 0) := (updateInputFields_selected _).trans rfl
  have hprev : (App.previous a).selected =
      Option.some (match a.selected with
        | Option.some i =>
            if i = 0 then a.projection.length - 1 else i - 1
        | Option.none => 0) := (updateInputFields_selected _).trans rfl
  refine ⟨fun _ hsel => ?_, fun hsel => ?_, fun _ hsel => ?_⟩
  · rw [hnext, hsel]
    simp
  · rw [hprev, hsel]
    simp
  · exact ⟨by rw [hnext, hsel], by rw [hprev, hsel]⟩

theorem selection_wraparound_witness :
    ((App.next selectedOne).selected = Option.some 0)
    ∧ ((App.previous selectedOne).selected = Option.some 0)
    ∧ ((App.next (App.new "w")).selected = Option.some 0)
    ∧ ((App.previous (App.new "w")).selected = Option.some 0) :=
  ⟨(selection_wraparound selectedOne).1 (by decide) (by decide),
    (selection_wraparound selectedOne).2.1 (by decide),
    ((selection_wraparound (App.new "w")).2.2 rfl rfl).1,
    ((selection_wraparound (App.new "w")).2.2 rfl rfl).2⟩

/-- C3: in the event-driven generation the start path has no
already-active guard: in a reachable state whose selected projection
record is active with both completion flags set, the start command still
emits the `SpawnMachine` event, and the background spawn operation posts
to the network unconditionally, producing a spawned-successfully message
(never an already-active one). -/
theorem spawn_active_machine_unguarded :
    Reachable selectedActive
    ∧ selectedActive.projection[0]? = Option.some mActive
    ∧ selectedActive.selected = Option.some 0
    ∧ mActive.isActive = true
    ∧ mActive.authUserInUserOwns = true
    ∧ mActive.authUserInRootOwns = true
    ∧ selectedActive.requestSpawnMachine = [Event.spawnMachine 7]
    ∧ spawnMachine (fun _ => HttpSendResult.response true "200 OK") 7
        = Except.ok "Machine 7 spawned successfully" := by
  refine ⟨⟨"k", ?_⟩, rfl, by decide, rfl, rfl, rfl, by decide, rfl⟩
  exact Relation.ReflTransGen.tail
    (Relation.ReflTransGen.tail Relation.ReflTransGen.refl
      (Step.fetchResult (Except.ok [mActive, mIdle1, mIdle2])
        (App.new "k")))
    (Step.key KeyCode.down fetchedThree)

/-- The retired-series loop walks a finite next-link chain to completion
and accumulates the pages' items in page order. -/
theorem fetchRetiredLoop_chain (page : String → Except String Root)
    (profile : Nat → Except String (Option String)) (r : Root)
    (rs : List Root)
    (hchain : RetiredChain (fetchMachines page profile) r rs) :
    ∀ fuel acc, rs.length ≤ fuel →
      fetchRetiredLoop page profile fuel r acc =
        Option.some (Except.ok (acc ++ (rs.map Root.data).flatten)) := by
  induction hchain with
  | nil r h =>
    intro fuel acc _
    unfold fetchRetiredLoop
    rw [h]
    simp
  | cons r r2 rest url hnext hfetch hrest ih =>
    intro fuel acc hfuel
    cases fuel with
    | zero => exact absurd hfuel (by simp)
    | succ fuel =>
      unfold fetchRetiredLoop
      rw [hnext]
      simp only []
      rw [hfetch]
      show fetchRetiredLoop page profile fuel r2 (acc ++ r2.data) = _
      rw [ih fuel (acc ++ r2.data) (Nat.le_of_succ_le_succ hfuel)]
      simp

/-- A transport or decode error on an individual page propagates through
`fetch_machines` unchanged. -/
theorem fetchMachines_error (page : String → Except String Root)
    (profile : Nat → Except String (Option String)) (url : String)
    (e : String) (h : page url = Except.error e) :
    fetchMachines page profile url = Except.error e := by
  unfold fetchMachines
  rw [h]

/-- C5: contract of `fetch_all_machines`: under a finite retired series,
the result is the active-catalog page's items followed by every
retired-catalog page's items in page order, and the traversal terminates
within the series length; and a failing page request — the active page,
the first retired page, or any page the next link points at — aborts the
whole operation with that single error and no partial result. -/
theorem fetchAllMachines_contract (page : String → Except String Root)
    (profile : Nat → Except String (Option String)) (ra r0 : Root)
    (rs : List Root) (fuel : Nat)
    (hactive : fetchMachines page profile activeMachinesUrl = Except.ok ra)
    (hretired : fetchMachines page profile retiredMachinesUrl
        = Except.ok r0)
    (hchain : RetiredChain (fetchMachines page profile) r0 rs)
    (hfuel : rs.length ≤ fuel) :
    fetchAllMachines page profile fuel =
      Option.some (Except.ok (ra.data ++ r0.data ++ (rs.map Root.data).flatten))
    ∧ (∀ (page2 : String → Except String Root) profile2 fuel2 e,
        page2 activeMachinesUrl = Except.error e →
        fetchAllMachines page2 profile2 fuel2
          = Option.some (Except.error e))
    ∧ (∀ (page2 : String → Except String Root) profile2 fuel2 r e,
        fetchMachines page2 profile2 activeMachinesUrl = Except.ok r →
        page2 retiredMachinesUrl = Except.error e →
        fetchAllMachines page2 profile2 fuel2
          = Option.some (Except.error e))
    ∧ (∀ (page2 : String → Except String Root) profile2 fuel2 r
          (acc : List Machine) url e,
        r.links.next = Option.some url →
        page2 url = Except.error e →
        fetchRetiredLoop page2 profile2 (fuel2 + 1) r acc
          = Option.some (Except.error e)) := by
  refine ⟨?_, ?_, ?_, ?_⟩
  · unfold fetchAllMachines
    rw [hactive, hretired]
    show fetchRetiredLoop page profile fuel r0 (ra.data ++ r0.data) = _
    rw [fetchRetiredLoop_chain page profile r0 rs hchain fuel
      (ra.data ++ r0.data) hfuel]
  · intro page2 profile2 fuel2 e he
    unfold fetchAllMachines
    rw [fetchMachines_error page2 profile2 activeMachinesUrl e he]
  · intro page2 profile2 fuel2 r e hr he
    unfold fetchAllMachines
    rw [hr, fetchMachines_error page2 profile2 retiredMachinesUrl e he]
  · intro page2 profile2 fuel2 r acc url e hnext he
    unfold fetchRetiredLoop
    rw [hnext]
    simp only []
    rw [fetchMachines_error page2 profile2 url e he]

theorem fetchAllMachines_contract_witness :
    fetchAllMachines pageW profileW 2 =
      Option.some (Except.ok [mIdle1, mIdle2, mIdle3, mIdle4]) := by
  have h := (fetchAllMachines_contract pageW profileW rootA rootR0
    [rootR1, rootR2] 2 rfl rfl
    (RetiredChain.cons rootR0 rootR1 [rootR2] "page2" rfl rfl
      (RetiredChain.cons rootR1 rootR2 [] "page3" rfl rfl
        (RetiredChain.nil rootR2 rfl))) (by decide)).1
  exact h

/-- C9: enrichment failure is non-fatal: when the page request itself
succeeds, `fetch_machines` still returns the page; a record whose detail
request fails with a transport error is kept at its position exactly
unchanged — its address stays unset — and a successful refresh result
never alters the status message. -/
theorem fetchMachines_enrichment_nonfatal
    (page : String → Except String Root)
    (profile : Nat → Except String (Option String)) (url : String)
    (root : Root) (hpage : page url = Except.ok root) :
    (∃ root2, fetchMachines page profile url = Except.ok root2
      ∧ root2.links = root.links
      ∧ root2.data.length = root.data.length
      ∧ (∀ (i : Nat) (m : Machine), root.data[i]? = Option.some m →
          ∀ e, profile m.id = Except.error e →
            root2.data[i]? = Option.some m))
    ∧ (∀ (m : Machine) e, profile m.id = Except.error e →
        enrichMachine profile m = m)
    ∧ (∀ (a : App) (ms : List Machine),
        (a.handleFetchMachinesResult (Except.ok ms)).infoMessage
          = a.infoMessage) := by
  have henrich : ∀ (m : Machine) e, profile m.id = Except.error e →
      enrichMachine profile m = m := by
    intro m e h
    unfold enrichMachine
    split
    · rw [h]
    · rfl
  refine ⟨⟨{ root with data := root.data.map (enrichMachine profile) },
      ?_, rfl, by simp, ?_⟩, henrich, ?_⟩
  · unfold fetchMachines
    rw [hpage]
  · intro i m hm e he
    simp [List.getElem?_map, hm, henrich m e he]
  · intro a ms
    exact (updateInputFields_infoMessage _).trans rfl

theorem fetchMachines_enrichment_nonfatal_witness :
    ∃ root2, fetchMachines pageE profileE "someUrl" = Except.ok root2
      ∧ root2.data[0]? = Option.some mEnrich
      ∧ mEnrich.isActive = true
      ∧ mEnrich.ip = Option.none := by
  obtain ⟨⟨root2, h1, _, _, h4⟩, _, _⟩ :=
    fetchMachines_enrichment_nonfatal pageE profileE "someUrl" rootE rfl
  exact ⟨root2, h1, h4 0 mEnrich rfl "connection reset" rfl, rfl, rfl⟩

end HtbTui
